import Mathlib

/-!
Shallow embedding of the `slime_core` handler pipeline execution engine
(`slime_core/handlers/__init__.py`, `slime_core/handlers/wrapper.py`,
`slime_core/utils/base.py`, `slime_core/hooks/plugin.py`) together with the
machine-checked statements of the specification claims about it.

Executions are modelled as pure functions producing an event trace (the
observable side effects: `handle` bodies run, wrapper phases run, log calls)
together with an optional propagating exception, mirroring Python's
exception-based control flow with an explicit `Option Exc` channel.
-/

/--
Exception taxonomy of the engine.  Modelled from the spec (§3, §7): the module
`slime_core/utils/exception.py` is imported throughout the source but is not
part of the sources available here, so the class hierarchy is reconstructed
from the spec's ControlSignal tagged union and from the import lists:
`HandlerTerminate` (carries `raise_handler`, here `origin`), `HandlerBreak`,
`HandlerContinue`, `HandlerException` (carries `exception_handler` and the
wrapped `exception`), `HandlerWrapperException` (same fields, the handler
being the wrapper), and arbitrary non-engine exceptions (`other`).
-/
inductive Exc where
  | termin (origin : Option Nat)
  | brk
  | cont
  | hexc (handler : Nat) (cause : Exc)
  | hwexc (wrapper : Nat) (cause : Exc)
  | other (code : Nat)
deriving DecidableEq, Repr

/--
Membership in the `HandlerBaseException` hierarchy, used by
`HandlerWrapperGenerator.call__` (`handlers/wrapper.py` lines 60-68).
Modelled from the spec: `exception.py` is absent from the sources, and the
spec's signal taxonomy (§3, §7) places all five engine exceptions in one
family distinct from foreign exceptions, so everything except `other` counts
as a handler-base exception.
-/
def Exc.isHandlerBase : Exc → Bool
  | .other _ => false
  | _ => true

/--
Observable events of a run: a handler's `handle` body running, a wrapper
generator's before-phase running up to its `yield`, its after-phase being
resumed normally (second `next`), an exception being thrown into its
suspended generator (`ContextGenerator.__exit__` exception path), the owning
node logging a `HandlerWrapperException` (`handlers/__init__.py` line 104),
and the plugin/build events of the build bracket (`hooks/plugin.py`).
-/
inductive Ev where
  | handleRun (hid : Nat)
  | wrapBefore (wid : Nat)
  | wrapAfterNormal (wid : Nat)
  | wrapAfterThrow (wid : Nat) (e : Exc)
  | logWrapperError (wid : Nat)
  | pluginBefore (p : Nat)
  | pluginAfter (p : Nat)
  | buildPhase
deriving DecidableEq, Repr

/-- Result of running a unit-returning procedure: emitted trace plus the
exception propagating out of it, if any. -/
abbrev R := List Ev × Option Exc

/-- Value yielded by a wrapper's `handle_yield` generator at its single
`yield`: either the reserved `STOP` sentinel or an ordinary value. -/
inductive YVal where
  | stop
  | val
deriving DecidableEq, Repr

/-- Behavior of a wrapper's before-phase (the code of `handle_yield` up to
its `yield`): it either reaches the `yield` with a value or raises. -/
inductive BeforeB where
  | yields (v : YVal)
  | raises (e : Exc)
deriving DecidableEq, Repr

/-- Behavior of the suspended generator when an exception is thrown into it
(`gen.throw`): plain code after `yield` lets the same exception propagate
(`reraise`); code that raises during unwinding surfaces a different
exception (`raisesOther`). -/
inductive ThrowB where
  | reraise
  | raisesOther (e : Exc)
deriving DecidableEq, Repr

/--
Model of one middleware wrapper (`CoreHandlerWrapper`): its id, what its
`handle_yield` generator does before the `yield`, what the code after the
`yield` does on a normal resume (`none` = runs to completion, `some e` =
raises `e`), and what happens when an exception is thrown in at the `yield`.
-/
structure Wrapper where
  wid : Nat
  before : BeforeB
  afterN : Option Exc
  afterT : ThrowB
deriving DecidableEq, Repr

/--
Exception translation performed by `HandlerWrapperGenerator.call__`
(`handlers/wrapper.py` lines 60-68): a `HandlerBaseException` is re-raised
unchanged, any other exception is wrapped into a `HandlerWrapperException`
attributed to the wrapper.
-/
def wrapCall (wid : Nat) (e : Exc) : Exc :=
  if e.isHandlerBase then e else .hwexc wid e

/--
Entering one wrapper scope: `ContextGenerator.__enter__` calls `next`, which
goes through `HandlerWrapperGenerator.call__`; on success the before-phase
runs up to the `yield` and the yielded value is returned.
-/
def enterW (w : Wrapper) : List Ev × Except Exc YVal :=
  match w.before with
  | .yields v => ([.wrapBefore w.wid], .ok v)
  | .raises e => ([], .error (wrapCall w.wid e))

/--
Exiting one wrapper scope on the no-exception path: `ContextGenerator.__exit__`
calls `next` again through `call__`, resuming the generator after the `yield`;
the `StopIteration` ending the generator is swallowed by `BaseGenerator.call__`
(`utils/base.py` lines 615-628), and an exception raised by the after-phase
goes through the `call__` translation.
-/
def exitNormalW (w : Wrapper) : List Ev × Option Exc :=
  ( [.wrapAfterNormal w.wid],
    match w.afterN with
    | none => none
    | some e => some (wrapCall w.wid e) )

/--
Exiting one wrapper scope on the exception path: `ContextGenerator.__exit__`
(`utils/base.py` lines 664-701) calls `self.gen.throw` directly, NOT through
`call__`, so no `HandlerWrapperException` wrapping happens here.  If the
generator lets the same exception propagate, `__exit__` returns `False` and
the exception continues; if the unwinding code raises a different exception,
that one is raised instead.  The returned exception is the one that keeps
propagating.
-/
def exitThrowW (w : Wrapper) (e : Exc) : List Ev × Exc :=
  ( [.wrapAfterThrow w.wid e],
    match w.afterT with
    | .reraise => e
    | .raisesOther e2 => e2 )

/-- Outcome of the scope-opening loop of `ContextManagerStack`. -/
inductive EnterOut where
  | opened
  | stopped
  | failed (e : Exc)
deriving DecidableEq, Repr

/--
Scope-opening loop of `ContextManagerStack` (`utils/base.py` lines 754-766):
enter each context manager in declared order, collecting entered scopes; if a
yielded value is `STOP`, stop opening further scopes (the already-entered
scope is kept on the exit stack); if an `__enter__` raises, the loop aborts
and the exception unwinds the scopes entered so far.  Returns the trace, the
entered wrappers in entry order, and the outcome.
-/
def enterStack : List Wrapper → List Ev × List Wrapper × EnterOut
  | [] => ([], [], .opened)
  | w :: ws =>
    match enterW w with
    | (t, .error e) => (t, [], .failed e)
    | (t, .ok v) =>
      if v = .stop then (t, [w], .stopped)
      else
        let (t2, entered, out) := enterStack ws
        (t ++ t2, w :: entered, out)

/--
Unwinding discipline of `contextlib.ExitStack` over the entered scopes, taken
innermost-first: with no pending exception each scope's after-phase is resumed
normally, and an exception it raises becomes the pending exception for the
outer scopes; with a pending exception each scope receives it via
`gen.throw`, and whatever comes out keeps unwinding outward.
-/
def unwindStack : List Wrapper → Option Exc → R
  | [], r => ([], r)
  | w :: ws, none =>
    let (t, r) := exitNormalW w
    let (t2, r2) := unwindStack ws r
    (t ++ t2, r2)
  | w :: ws, some e =>
    let (t, e2) := exitThrowW w e
    let (t2, r2) := unwindStack ws (some e2)
    (t ++ t2, r2)

/--
Whole run of `CoreHandlerWrapperContainer.handle` (`handlers/wrapper.py`
lines 111-118): open the scopes in order; if opening failed, unwind the
entered scopes with the exception; otherwise run the wrapped node's `handle`
(`bodyR`) unless the last yielded value was `STOP`, then unwind the entered
scopes in reverse order with the body's outcome.
-/
def stackRun (ws : List Wrapper) (bodyR : R) : R :=
  match enterStack ws with
  | (t, entered, .failed e) =>
    let (t2, r) := unwindStack entered.reverse (some e)
    (t ++ t2, r)
  | (t, entered, .stopped) =>
    let (t2, r) := unwindStack entered.reverse none
    (t ++ t2, r)
  | (t, entered, .opened) =>
    let (t2, r) := unwindStack entered.reverse bodyR.2
    (t ++ bodyR.1 ++ t2, r)

/--
Exception normalization of `CoreHandler.__call__` (`handlers/__init__.py`
lines 89-115): `HandlerTerminate` gets its `raise_handler` stamped with the
nearest handler only if still unset, then is re-raised; `HandlerBreak` and
`HandlerContinue` are re-raised; `HandlerWrapperException` is logged and
re-raised as a `HandlerException` attributed to the current node;
`HandlerException` passes through; any other exception is wrapped into a
`HandlerException` attributed to the current node.
-/
def normalizeExc (hid : Nat) : Option Exc → List Ev × Option Exc
  | none => ([], none)
  | some e =>
    match e with
    | .termin none => ([], some (.termin (some hid)))
    | .termin (some h) => ([], some (.termin (some h)))
    | .brk => ([], some .brk)
    | .cont => ([], some .cont)
    | .hwexc w cause => ([.logWrapperError w], some (.hexc hid cause))
    | .hexc h cause => ([], some (.hexc h cause))
    | .other c => ([], some (.hexc hid (.other c)))

/--
Common part of `CoreHandler.__call__` (and, when `isContainer` is true, the
surrounding `HandlerBreak` absorption of `CoreHandlerContainer.__call__`,
`handlers/__init__.py` lines 221-226): the gate (`launch.call`) either skips
the body or runs it once; a non-empty wrapper chain routes the body through
`CoreHandlerWrapperContainer.handle`; the resulting exception is normalized;
a container finally absorbs `HandlerBreak`.
-/
def finishCall (isContainer : Bool) (hid : Nat) (ws : List Wrapper)
    (gate : Bool) (bodyR : R) : R :=
  let gated : R :=
    if gate then
      if ws.isEmpty then bodyR else stackRun ws bodyR
    else ([], none)
  let (t2, r2) := normalizeExc hid gated.2
  let r3 := if isContainer && r2 == some .brk then none else r2
  (gated.1 ++ t2, r3)

mutual
/--
Handler tree: a leaf whose `handle` emits its run event and then possibly
raises (`body`), or a container iterating children; both carry a wrapper
chain and a gate flag (whether `launch.call` runs the body for the current
rank; `CoreLaunchUtil.call` is abstract in the source, the gate behavior is
modelled from the spec §4.2).
-/
inductive HTree where
  | leaf (hid : Nat) (body : Option Exc) (wrappers : List Wrapper) (gate : Bool)
  | node (hid : Nat) (children : HForest) (wrappers : List Wrapper) (gate : Bool)
deriving DecidableEq

/-- Ordered children of a container. -/
inductive HForest where
  | nil
  | cons (head : HTree) (tail : HForest)
deriving DecidableEq
end

mutual
/--
Execution entry point `__call__` of a handler (`handlers/__init__.py`):
a leaf runs its `handle` body through gate, wrappers and normalization; a
container's `handle` iterates the children absorbing `HandlerContinue`
(lines 213-219), and the container's `__call__` additionally absorbs
`HandlerBreak` (lines 221-226).
-/
def execTree : HTree → R
  | .leaf hid body ws g =>
    finishCall false hid ws g ([.handleRun hid], body)
  | .node hid children ws g =>
    let inner := execForest children
    let handled : R := (inner.1, if inner.2 = some .cont then none else inner.2)
    finishCall true hid ws g handled

/--
Child-iteration loop of `CoreHandlerContainer.handle`: run each child's
`__call__` in order, stopping at the first propagating exception.
-/
def execForest : HForest → R
  | .nil => ([], none)
  | .cons c cs =>
    match execTree c with
    | (t, none) =>
      let r := execForest cs
      (t ++ r.1, r.2)
    | (t, some e) => (t, some e)
end

/-- Direct invocation of a leaf's `handle` (`do_work`), bypassing
`__call__`: it emits its run event and produces its body's outcome. -/
def leafHandle (hid : Nat) (body : Option Exc) : R :=
  ([.handleRun hid], body)

/-- Predicate for a well-behaved wrapper: the before-phase yields an ordinary
value, the after-phase completes normally, and unwinding code lets a thrown
exception propagate unchanged. -/
def normalW (w : Wrapper) : Prop :=
  w.before = .yields .val ∧ w.afterN = none ∧ w.afterT = .reraise

instance (w : Wrapper) : Decidable (normalW w) := by
  unfold normalW; infer_instance

/-- Event used to count opened wrapper scopes. -/
def isOpenEv : Ev → Bool
  | .wrapBefore _ => true
  | _ => false

/-- Event used to count normally closed wrapper scopes. -/
def isCloseEv : Ev → Bool
  | .wrapAfterNormal _ => true
  | _ => false

/--
State of the bidirectional-list world (`utils/base.py`, `BiListItem` /
`BiList`): each container (addressed by a natural number) has an ordered
child sequence, each item (also addressed by a natural number) has an
optional recorded parent, and `warns` counts the consistency warnings logged
by `BiListItem.set_parent__`.
-/
structure BiSt where
  seqs : Nat → List Nat
  par : Nat → Option Nat
  warns : Nat

/--
Model of `BiListItem.set_parent__` (`utils/base.py` lines 379-389): if the
item already has a parent and the new parent is a different one, log exactly
one consistency warning; in every case record the new parent.
-/
def setParent (s : BiSt) (item c : Nat) : BiSt :=
  let prev := s.par item
  { seqs := s.seqs,
    par := fun i => if i = item then some c else s.par i,
    warns := s.warns + (if prev.isSome ∧ prev ≠ some c then 1 else 0) }

/-- Insertion into a Python list at a clamped index (`list.insert`). -/
def listInsertAt : Nat → Nat → List Nat → List Nat
  | _, x, [] => [x]
  | 0, x, l => x :: l
  | n + 1, x, a :: l => a :: listInsertAt n x l

/--
Model of `BiList.insert` (`utils/base.py` lines 490-492): set the item's
parent to this container, then insert the item into this container's
sequence.  Nothing else is touched; in particular the item is not removed
from any other container's sequence.
-/
def biInsert (s : BiSt) (c idx item : Nat) : BiSt :=
  let s1 := setParent s item c
  { seqs := fun c2 => if c2 = c then listInsertAt idx item (s1.seqs c) else s1.seqs c2,
    par := s1.par,
    warns := s1.warns }

/-- Concrete bidirectional-list state used as the C4 scenario: container 0
(the X of the claim) holds item 5 and is recorded as item 5's parent;
container 1 (the Y of the claim) is empty; no warnings logged yet. -/
def biEx : BiSt :=
  { seqs := fun c => if c = 0 then [5] else [],
    par := fun i => if i = 5 then some 0 else none,
    warns := 0 }

/-- Advancement state of a Python generator object. -/
inductive GState where
  | fresh
  | suspendedAtYield
  | finished
deriving DecidableEq, Repr

/--
One `next` on a `BaseGenerator` wrapping a plugin's single-yield
`build_train_yield` generator (`utils/base.py` lines 566-628 and
`hooks/plugin.py`): the first advance runs the plugin's before-phase up to
the `yield`; the second advance runs the after-phase to completion, the
ending `StopIteration` being swallowed by `call__`; further advances return
`PASS` and do nothing (`stop_allowed` defaults to true).
-/
def bgNext (p : Nat) : GState → List Ev × GState
  | .fresh => ([.pluginBefore p], .suspendedAtYield)
  | .suspendedAtYield => ([.pluginAfter p], .finished)
  | .finished => ([], .finished)

/--
Scope entry of the `with BaseGeneratorQueue(...)` statement as used by
`CorePluginContainer.build_train_yield` (`hooks/plugin.py` lines 26-30 with
`utils/base.py` lines 706-725): the queue materializes the `BaseGenerator`
list, but the `vals` generator expression it yields is lazy and the caller
discards it, so no plugin generator is advanced on entry.
-/
def bgqEnter (gens : List (Nat × GState)) : List Ev × List (Nat × GState) :=
  ([], gens)

/--
Post-`yield` loop of `BaseGeneratorQueue` (`utils/base.py` lines 723-725),
reached only when the with-body completes without an exception: each queued
generator is advanced exactly once, in registration (forward) order.
-/
def bgqExitAdvance : List (Nat × GState) → List Ev × List (Nat × GState)
  | [] => ([], [])
  | (p, st) :: rest =>
    let (t, st2) := bgNext p st
    let (t2, rest2) := bgqExitAdvance rest
    (t ++ t2, (p, st2) :: rest2)

/--
Exception path of the `BaseGeneratorQueue` context manager: the exception is
thrown into its `contextmanager` generator at `yield vals`; the generator
body has no handler around the `yield` (the docstring states "Exceptions
will NOT be processed"), so the exception propagates at once and the
post-`yield` advance loop is skipped.
-/
def bgqExitThrow (_gens : List (Nat × GState)) (e : Exc) : List Ev × Exc :=
  ([], e)

/--
Modelled from the spec: the concrete BuildOrchestrator driver
(`run_build_train__` implementation) is absent from the sources — only its
abstract declaration exists in `hooks/build.py` — so the driving protocol is
taken from §4.5: advance the plugins' `build_train_yield` generator once
(opening the plugins bracket), invoke `build.build_phase`, then on success
advance the generator again (closing the bracket) and on failure throw the
exception into the suspended generator.  The plugins bracket itself
(`CorePluginContainer.build_train_yield` over `BaseGeneratorQueue`) is
modelled from the source via `bgqEnter` / `bgqExitAdvance` / `bgqExitThrow`.
-/
def runPluginsBracket (pids : List Nat) (buildExc : Option Exc) : R :=
  let gens := pids.map (fun p => (p, GState.fresh))
  let (tEnter, gens1) := bgqEnter gens
  match buildExc with
  | some e =>
    let (tThrow, e2) := bgqExitThrow gens1 e
    (tEnter ++ [.buildPhase] ++ tThrow, some e2)
  | none =>
    let (tExit, _) := bgqExitAdvance gens1
    (tEnter ++ [.buildPhase] ++ tExit, none)

/-- Opening a chain of wrappers whose before-phases all yield an ordinary
value enters every scope in declared order. -/
theorem enterStack_normal :
    ∀ ws : List Wrapper, (∀ w ∈ ws, w.before = .yields .val) →
      enterStack ws = (ws.map (fun w => Ev.wrapBefore w.wid), ws, .opened)
  | [], _ => rfl
  | w :: ws, h => by
    have hw := h w (List.mem_cons_self w ws)
    have ih := enterStack_normal ws (fun x hx => h x (List.mem_cons_of_mem _ hx))
    simp [enterStack, enterW, hw, ih]

/-- Opening a chain whose prefix yields ordinary values and whose next
wrapper yields `STOP` enters exactly the prefix plus the stopping wrapper and
never touches the rest of the chain. -/
theorem enterStack_stop :
    ∀ pre : List Wrapper, ∀ w0 : Wrapper, ∀ post : List Wrapper,
      (∀ w ∈ pre, w.before = .yields .val) → w0.before = .yields .stop →
      enterStack (pre ++ w0 :: post) =
        (pre.map (fun w => Ev.wrapBefore w.wid) ++ [Ev.wrapBefore w0.wid],
          pre ++ [w0], .stopped)
  | [], w0, post, _, h0 => by
    simp [enterStack, enterW, h0]
  | w :: pre, w0, post, h, h0 => by
    have hw := h w (List.mem_cons_self w pre)
    have ih := enterStack_stop pre w0 post (fun x hx => h x (List.mem_cons_of_mem _ hx)) h0
    simp [enterStack, enterW, hw, ih]

/-- Unwinding scopes with no pending exception resumes every after-phase
normally when none of them raises. -/
theorem unwindStack_none :
    ∀ ws : List Wrapper, (∀ w ∈ ws, w.afterN = none) →
      unwindStack ws none = (ws.map (fun w => Ev.wrapAfterNormal w.wid), none)
  | [], _ => rfl
  | w :: ws, h => by
    have hw := h w (List.mem_cons_self w ws)
    have ih := unwindStack_none ws (fun x hx => h x (List.mem_cons_of_mem _ hx))
    simp [unwindStack, exitNormalW, hw, ih]

/-- Unwinding scopes with a pending exception delivers the exception to every
after-phase in turn and lets it propagate unchanged when every scope
re-raises. -/
theorem unwindStack_throw :
    ∀ ws : List Wrapper, ∀ e : Exc, (∀ w ∈ ws, w.afterT = .reraise) →
      unwindStack ws (some e) = (ws.map (fun w => Ev.wrapAfterThrow w.wid e), some e)
  | [], _, _ => rfl
  | w :: ws, e, h => by
    have hw := h w (List.mem_cons_self w ws)
    have ih := unwindStack_throw ws e (fun x hx => h x (List.mem_cons_of_mem _ hx))
    simp [unwindStack, exitThrowW, hw, ih]

/-- Whole-chain run over well-behaved wrappers with a normally completing
body: before-phases in declared order, the body, after-phases in reverse. -/
theorem stackRun_success (ws : List Wrapper) (bodyT : List Ev)
    (hb : ∀ w ∈ ws, w.before = .yields .val) (ha : ∀ w ∈ ws, w.afterN = none) :
    stackRun ws (bodyT, none) =
      (ws.map (fun w => Ev.wrapBefore w.wid) ++ bodyT
        ++ ws.reverse.map (fun w => Ev.wrapAfterNormal w.wid), none) := by
  have hrev : ∀ w ∈ ws.reverse, w.afterN = none :=
    fun w hw => ha w (List.mem_reverse.mp hw)
  simp [stackRun, enterStack_normal ws hb, unwindStack_none ws.reverse hrev]

/-- Whole-chain run over well-behaved wrappers with a body raising `e`: the
exception is delivered to every after-phase innermost first and then
propagates unchanged. -/
theorem stackRun_bodyThrow (ws : List Wrapper) (bodyT : List Ev) (e : Exc)
    (hb : ∀ w ∈ ws, w.before = .yields .val) (ht : ∀ w ∈ ws, w.afterT = .reraise) :
    stackRun ws (bodyT, some e) =
      (ws.map (fun w => Ev.wrapBefore w.wid) ++ bodyT
        ++ ws.reverse.map (fun w => Ev.wrapAfterThrow w.wid e), some e) := by
  have hrev : ∀ w ∈ ws.reverse, w.afterT = .reraise :=
    fun w hw => ht w (List.mem_reverse.mp hw)
  simp [stackRun, enterStack_normal ws hb, unwindStack_throw ws.reverse e hrev]

/--
Claim C2: in the tree A = [B = [b1, b2], C] where the grandchild b1 raises
`Continue` during its work, b1 runs, b2 is skipped, the parent container B
absorbs the `Continue` and completes normally, and the grandparent A still
executes its next child C; the whole run succeeds.  The sibling b2 is an
arbitrary subtree: the run never touches it.
-/
theorem c2_continue_absorbed_by_parent (aId bId b1Id cId : Nat) (b2 : HTree) :
    execTree (.node aId
      (.cons (.node bId
        (.cons (.leaf b1Id (some .cont) [] true) (.cons b2 .nil)) [] true)
      (.cons (.leaf cId none [] true) .nil)) [] true)
      = ([Ev.handleRun b1Id, Ev.handleRun cId], none) := rfl

/--
Claim C5: a `Terminate` raised by a leaf with unset origin propagates
uncaught through three enclosing containers to the top-level caller, and the
origin it carries on arrival is the raising leaf's id: the leaf's own
`__call__` boundary (the innermost node observing the unset origin) stamps
it, and no container it passes through overwrites the attribution.
-/
theorem c5_terminate_origin_innermost (a b c l : Nat) :
    execTree (.node a (.cons (.node b (.cons (.node c
      (.cons (.leaf l (some (.termin none)) [] true) .nil) [] true) .nil) [] true) .nil) [] true)
      = ([Ev.handleRun l], some (.termin (some l))) := rfl

/--
Claim C9: for a leaf handler with no wrappers executed through an unfiltered
gate, invoking the `__call__` entry point is equivalent to invoking its
`handle` (`do_work`) directly on the same context, provided the body
completes without raising.
-/
theorem c9_execute_equals_handle (hid : Nat) :
    execTree (.leaf hid none [] true) = leafHandle hid none := rfl

/--
Claim C7: for every non-empty chain of well-behaved wrappers around a node
whose execution completes normally, the before-phases run in declared order
(first wrapper, the outermost, first) and the after-phases run in exactly the
reverse order (innermost first).
-/
theorem c7_wrapper_order (hid : Nat) (ws : List Wrapper)
    (hne : ws ≠ []) (h : ∀ w ∈ ws, normalW w) :
    execTree (.leaf hid none ws true) =
      (ws.map (fun w => Ev.wrapBefore w.wid) ++ [Ev.handleRun hid]
        ++ ws.reverse.map (fun w => Ev.wrapAfterNormal w.wid), none) := by
  have hb : ∀ w ∈ ws, w.before = .yields .val := fun w hw => (h w hw).1
  have ha : ∀ w ∈ ws, w.afterN = none := fun w hw => (h w hw).2.1
  have hemp : ws.isEmpty = false := by
    cases ws with
    | nil => exact absurd rfl hne
    | cons w ws' => rfl
  simp [execTree, finishCall, hemp, stackRun_success ws [Ev.handleRun hid] hb ha,
    normalizeExc]

/-- Witness for C7 at a concrete two-wrapper chain. -/
theorem c7_wrapper_order_witness :
    execTree (.leaf 9 none
      [⟨1, .yields .val, none, .reraise⟩, ⟨2, .yields .val, none, .reraise⟩] true) =
      (([⟨1, .yields .val, none, .reraise⟩, ⟨2, .yields .val, none, .reraise⟩] : List Wrapper).map
          (fun w => Ev.wrapBefore w.wid) ++ [Ev.handleRun 9]
        ++ ([⟨1, .yields .val, none, .reraise⟩,
            ⟨2, .yields .val, none, .reraise⟩] : List Wrapper).reverse.map
          (fun w => Ev.wrapAfterNormal w.wid), none) :=
  c7_wrapper_order 9 _ (by decide) (by decide)

/--
Claim C3: for a container A = [h1, h2] wrapped by a non-empty chain of
well-behaved wrappers, a `Break` raised by h1 surfaces through the chain —
each opened wrapper's suspended generator receives the exception via its
failure path (`wrapAfterThrow`), innermost first — before A's own `__call__`
boundary discards it; whereas a `Continue` raised by h1 is absorbed inside
A's child loop, so the wrappers unwind on the normal-completion path only
and no wrapper sees an exception.
-/
theorem c3_break_seen_continue_unseen (aId h1 h2 : Nat) (ws : List Wrapper)
    (hne : ws ≠ []) (h : ∀ w ∈ ws, normalW w) :
    (execTree (.node aId
        (.cons (.leaf h1 (some .brk) [] true) (.cons (.leaf h2 none [] true) .nil)) ws true)
      = (ws.map (fun w => Ev.wrapBefore w.wid) ++ [Ev.handleRun h1]
          ++ ws.reverse.map (fun w => Ev.wrapAfterThrow w.wid .brk), none))
  ∧ (execTree (.node aId
        (.cons (.leaf h1 (some .cont) [] true) (.cons (.leaf h2 none [] true) .nil)) ws true)
      = (ws.map (fun w => Ev.wrapBefore w.wid) ++ [Ev.handleRun h1]
          ++ ws.reverse.map (fun w => Ev.wrapAfterNormal w.wid), none))
  ∧ (∀ wid e, Ev.wrapAfterThrow wid e ∉
      (execTree (.node aId
        (.cons (.leaf h1 (some .cont) [] true) (.cons (.leaf h2 none [] true) .nil)) ws true)).1) := by
  have hb : ∀ w ∈ ws, w.before = .yields .val := fun w hw => (h w hw).1
  have ha : ∀ w ∈ ws, w.afterN = none := fun w hw => (h w hw).2.1
  have ht : ∀ w ∈ ws, w.afterT = .reraise := fun w hw => (h w hw).2.2
  have hemp : ws.isEmpty = false := by
    cases ws with
    | nil => exact absurd rfl hne
    | cons w ws' => rfl
  have hcont : execTree (.node aId
      (.cons (.leaf h1 (some .cont) [] true) (.cons (.leaf h2 none [] true) .nil)) ws true)
      = (ws.map (fun w => Ev.wrapBefore w.wid) ++ [Ev.handleRun h1]
          ++ ws.reverse.map (fun w => Ev.wrapAfterNormal w.wid), none) := by
    simp [execTree, execForest, finishCall, hemp, normalizeExc,
      stackRun_success ws [Ev.handleRun h1] hb ha]
  refine ⟨?_, hcont, ?_⟩
  · simp [execTree, execForest, finishCall, hemp, normalizeExc,
      stackRun_bodyThrow ws [Ev.handleRun h1] .brk hb ht]
  · intro wid e
    rw [hcont]
    simp

/-- Witness for C3 at a concrete one-wrapper chain. -/
theorem c3_break_seen_continue_unseen_witness :
    (execTree (.node 0
        (.cons (.leaf 10 (some .brk) [] true) (.cons (.leaf 11 none [] true) .nil))
        [⟨100, .yields .val, none, .reraise⟩] true)
      = (([⟨100, .yields .val, none, .reraise⟩] : List Wrapper).map
            (fun w => Ev.wrapBefore w.wid) ++ [Ev.handleRun 10]
          ++ ([⟨100, .yields .val, none, .reraise⟩] : List Wrapper).reverse.map
            (fun w => Ev.wrapAfterThrow w.wid .brk), none))
  ∧ (execTree (.node 0
        (.cons (.leaf 10 (some .cont) [] true) (.cons (.leaf 11 none [] true) .nil))
        [⟨100, .yields .val, none, .reraise⟩] true)
      = (([⟨100, .yields .val, none, .reraise⟩] : List Wrapper).map
            (fun w => Ev.wrapBefore w.wid) ++ [Ev.handleRun 10]
          ++ ([⟨100, .yields .val, none, .reraise⟩] : List Wrapper).reverse.map
            (fun w => Ev.wrapAfterNormal w.wid), none))
  ∧ Ev.wrapAfterThrow 100 .cont ∉
      (execTree (.node 0
        (.cons (.leaf 10 (some .cont) [] true) (.cons (.leaf 11 none [] true) .nil))
        [⟨100, .yields .val, none, .reraise⟩] true)).1 :=
  have h := c3_break_seen_continue_unseen 0 10 11
    [⟨100, .yields .val, none, .reraise⟩] (by decide) (by decide)
  ⟨h.1, h.2.1, h.2.2 100 .cont⟩

/--
Claim C6: when some wrapper's before-phase yields the `STOP` sentinel, the
wrapped node's `handle` is never invoked (no `handleRun` event, for any leaf
body), the wrappers after the skipping one are never opened (no event of
theirs appears: the trace is exactly the prefix's), and every opened scope —
the well-behaved prefix plus the skipping wrapper itself — is still closed
normally, so the opened-scope count equals the closed-scope count.
-/
theorem c6_stop_skips_body_closes_scopes (hid : Nat) (b : Option Exc)
    (pre : List Wrapper) (w0 : Wrapper) (post : List Wrapper)
    (h : ∀ w ∈ pre, normalW w) (h0 : w0.before = .yields .stop) (h0a : w0.afterN = none) :
    (execTree (.leaf hid b (pre ++ w0 :: post) true) =
      (pre.map (fun w => Ev.wrapBefore w.wid) ++ [Ev.wrapBefore w0.wid]
        ++ [Ev.wrapAfterNormal w0.wid]
        ++ pre.reverse.map (fun w => Ev.wrapAfterNormal w.wid), none))
  ∧ Ev.handleRun hid ∉ (execTree (.leaf hid b (pre ++ w0 :: post) true)).1
  ∧ (execTree (.leaf hid b (pre ++ w0 :: post) true)).1.countP isOpenEv
      = (execTree (.leaf hid b (pre ++ w0 :: post) true)).1.countP isCloseEv := by
  have hb : ∀ w ∈ pre, w.before = .yields .val := fun w hw => (h w hw).1
  have ha : ∀ w ∈ pre.reverse, w.afterN = none :=
    fun w hw => (h w (List.mem_reverse.mp hw)).2.1
  have hemp : (pre ++ w0 :: post).isEmpty = false := by
    cases pre <;> rfl
  have hmain : execTree (.leaf hid b (pre ++ w0 :: post) true) =
      (pre.map (fun w => Ev.wrapBefore w.wid) ++ [Ev.wrapBefore w0.wid]
        ++ [Ev.wrapAfterNormal w0.wid]
        ++ pre.reverse.map (fun w => Ev.wrapAfterNormal w.wid), none) := by
    simp [execTree, finishCall, hemp, stackRun, enterStack_stop pre w0 post hb h0,
      unwindStack, exitNormalW, h0a, unwindStack_none pre.reverse ha, normalizeExc]
  refine ⟨hmain, ?_, ?_⟩
  · rw [hmain]
    simp
  · rw [hmain]
    simp [List.countP_append, List.countP_map, Function.comp_def, isOpenEv, isCloseEv,
      List.countP_cons]

/-- Witness for C6: one well-behaved wrapper, then a skipping wrapper, then a
never-reached wrapper, around a leaf whose body would raise. -/
theorem c6_stop_skips_body_closes_scopes_witness :
    (execTree (.leaf 10 (some (.other 9))
        ([⟨100, .yields .val, none, .reraise⟩] ++ ⟨101, .yields .stop, none, .reraise⟩ ::
          [⟨102, .yields .val, none, .reraise⟩]) true) =
      (([⟨100, .yields .val, none, .reraise⟩] : List Wrapper).map
          (fun w => Ev.wrapBefore w.wid) ++ [Ev.wrapBefore 101]
        ++ [Ev.wrapAfterNormal 101]
        ++ ([⟨100, .yields .val, none, .reraise⟩] : List Wrapper).reverse.map
          (fun w => Ev.wrapAfterNormal w.wid), none))
  ∧ Ev.handleRun 10 ∉ (execTree (.leaf 10 (some (.other 9))
        ([⟨100, .yields .val, none, .reraise⟩] ++ ⟨101, .yields .stop, none, .reraise⟩ ::
          [⟨102, .yields .val, none, .reraise⟩]) true)).1
  ∧ (execTree (.leaf 10 (some (.other 9))
        ([⟨100, .yields .val, none, .reraise⟩] ++ ⟨101, .yields .stop, none, .reraise⟩ ::
          [⟨102, .yields .val, none, .reraise⟩]) true)).1.countP isOpenEv
      = (execTree (.leaf 10 (some (.other 9))
        ([⟨100, .yields .val, none, .reraise⟩] ++ ⟨101, .yields .stop, none, .reraise⟩ ::
          [⟨102, .yields .val, none, .reraise⟩]) true)).1.countP isCloseEv :=
  c6_stop_skips_body_closes_scopes 10 (some (.other 9)) _ _ _ (by decide) (by decide) (by decide)

/--
Claim C10: a handler-base exception (`Break`, `Continue`, `Terminate`, or any
other member of the engine taxonomy) raised inside a wrapper's before-phase
or after-phase is re-raised by the wrapper machinery unchanged, while an
exception outside the taxonomy raised in those phases is wrapped into a
`HandlerWrapperException` attributed to the wrapper.
-/
theorem c10_signals_pass_through_wrappers (wid x : Nat) (e : Exc) (b : Option Exc) :
    (e.isHandlerBase = true →
        stackRun [⟨wid, .raises e, none, .reraise⟩] ([], b) = ([], some e)
      ∧ stackRun [⟨wid, .yields .val, some e, .reraise⟩] ([Ev.handleRun x], none)
          = ([.wrapBefore wid, .handleRun x, .wrapAfterNormal wid], some e)
      ∧ stackRun [⟨wid, .yields .val, none, .raisesOther e⟩] ([Ev.handleRun x], some .brk)
          = ([.wrapBefore wid, .handleRun x, .wrapAfterThrow wid .brk], some e))
  ∧ (e.isHandlerBase = false →
        stackRun [⟨wid, .raises e, none, .reraise⟩] ([], b) = ([], some (.hwexc wid e))
      ∧ stackRun [⟨wid, .yields .val, some e, .reraise⟩] ([Ev.handleRun x], none)
          = ([.wrapBefore wid, .handleRun x, .wrapAfterNormal wid], some (.hwexc wid e))) := by
  constructor
  · intro hbase
    refine ⟨?_, ?_, ?_⟩ <;>
      simp [stackRun, enterStack, enterW, wrapCall, hbase, unwindStack, exitNormalW,
        exitThrowW]
  · intro hbase
    constructor <;>
      simp [stackRun, enterStack, enterW, wrapCall, hbase, unwindStack, exitNormalW,
        exitThrowW]

/-- Witness for C10: a `Break` in the before-phase passes unchanged, a
foreign exception in the before-phase is wrapped and attributed. -/
theorem c10_signals_pass_through_wrappers_witness :
    stackRun [⟨4, .raises .brk, none, .reraise⟩] ([], none) = ([], some .brk)
  ∧ stackRun [⟨4, .raises (.other 3), none, .reraise⟩] ([], none)
      = ([], some (.hwexc 4 (.other 3))) :=
  ⟨((c10_signals_pass_through_wrappers 4 0 .brk none).1 rfl).1,
    ((c10_signals_pass_through_wrappers 4 0 (.other 3) none).2 rfl).1⟩

/-- Inserting an element into a list at any clamped index makes it a member
of the result. -/
theorem mem_listInsertAt (idx x : Nat) (l : List Nat) : x ∈ listInsertAt idx x l := by
  induction l generalizing idx with
  | nil => cases idx <;> simp [listInsertAt]
  | cons a l ih =>
    cases idx with
    | zero => simp [listInsertAt]
    | succ n =>
      have := ih n
      simp [listInsertAt]
      tauto

/-- Inserting an element into a container's sequence leaves every other
container's sequence unchanged. -/
theorem biInsert_seqs_other (s : BiSt) (c idx item c2 : Nat) (h : c2 ≠ c) :
    (biInsert s c idx item).seqs c2 = s.seqs c2 := by
  simp [biInsert, setParent, h]

/--
Counterexample to claim C4 as stated: in the concrete state `biEx`, item 5
is attached to container 0 (parent recorded and present in the sequence);
inserting it into the different container 1 sets its parent to 1 and logs
exactly one consistency warning, but — against the claim — the item is
STILL present in container 0's child sequence: `BiList.insert` only sets
the new parent and extends the new sequence, it never removes the item from
the old container.
-/
theorem c4_counterexample :
    biEx.par 5 = some 0
  ∧ 5 ∈ biEx.seqs 0
  ∧ (biInsert biEx 1 0 5).par 5 = some 1
  ∧ (biInsert biEx 1 0 5).warns = biEx.warns + 1
  ∧ 5 ∈ (biInsert biEx 1 0 5).seqs 0 := by
  refine ⟨rfl, ?_, rfl, rfl, ?_⟩ <;> decide

/--
Claim C4 as amended: re-parenting a node attached to container X into a
different container Y leaves the node's recorded parent Y, logs exactly one
consistency warning — but the node REMAINS in X's child sequence (it is now
present in both sequences); `BiList.insert` performs no removal from the old
parent, which is exactly the inconsistency the logged warning advertises.
-/
theorem c4_reparent_keeps_old_seq (s : BiSt) (x y idx item : Nat)
    (hpar : s.par item = some x) (hxy : x ≠ y) (hmem : item ∈ s.seqs x) :
    (biInsert s y idx item).par item = some y
  ∧ (biInsert s y idx item).warns = s.warns + 1
  ∧ item ∈ (biInsert s y idx item).seqs x
  ∧ item ∈ (biInsert s y idx item).seqs y := by
  refine ⟨?_, ?_, ?_, ?_⟩
  · simp [biInsert, setParent]
  · have hxy2 : some x ≠ some y := fun hc => hxy (Option.some_injective _ hc)
    simp [biInsert, setParent, hpar, hxy2]
  · rw [biInsert_seqs_other s y idx item x hxy]
    exact hmem
  · show item ∈ (biInsert s y idx item).seqs y
    simp [biInsert, setParent]
    exact mem_listInsertAt idx item _

/-- Witness for the amended C4 at the concrete state `biEx`. -/
theorem c4_reparent_keeps_old_seq_witness :
    (biInsert biEx 1 0 5).par 5 = some 1
  ∧ (biInsert biEx 1 0 5).warns = biEx.warns + 1
  ∧ 5 ∈ (biInsert biEx 1 0 5).seqs 0
  ∧ 5 ∈ (biInsert biEx 1 0 5).seqs 1 :=
  c4_reparent_keeps_old_seq biEx 0 1 0 5 rfl (by decide) (by decide)

/--
Counterexample to claim C8 as stated: when the wrapped body raises a foreign
exception (`other 3`) and wrapper 2's unwinding code, receiving it on the
failure path, itself raises another foreign exception (`other 7`), that
exception bypasses `HandlerWrapperGenerator.call__` (the `__exit__` exception
path calls `gen.throw` directly), so NO wrapper failure is created and NO
wrapper-failure log entry is emitted — against the claim's "logged" part —
even though the final exception is still a handler failure attributed to the
owning node 1.
-/
theorem c8_counterexample :
    (execTree (.leaf 1 (some (.other 3))
        [⟨2, .yields .val, none, .raisesOther (.other 7)⟩] true)).2
      = some (.hexc 1 (.other 7))
  ∧ Ev.logWrapperError 2 ∉
      (execTree (.leaf 1 (some (.other 3))
        [⟨2, .yields .val, none, .raisesOther (.other 7)⟩] true)).1 := by
  refine ⟨rfl, ?_⟩
  decide

/--
Claim C8 as amended: a foreign (non-signal) exception raised in a wrapper's
before-phase, or in its after-phase resumed on the normal-completion path, is
wrapped into a wrapper failure, logged by the owning node, and re-raised as a
handler failure whose origin is the owning node (never the wrapper); a
foreign exception raised by the wrapper's unwinding code while an exception
is already propagating skips the wrapper-failure stage — it is not logged —
but still surfaces as a handler failure attributed to the owning node, so in
every case callers of the node observe only a handler failure with the
node's own attribution.
-/
theorem c8_wrapper_failure_demoted_to_node (x w c c2 : Nat) :
    (execTree (.leaf x none [⟨w, .raises (.other c), none, .reraise⟩] true)
      = ([Ev.logWrapperError w], some (.hexc x (.other c))))
  ∧ (execTree (.leaf x none [⟨w, .yields .val, some (.other c), .reraise⟩] true)
      = ([Ev.wrapBefore w, Ev.handleRun x, Ev.wrapAfterNormal w, Ev.logWrapperError w],
          some (.hexc x (.other c))))
  ∧ (execTree (.leaf x (some (.other c)) [⟨w, .yields .val, none, .raisesOther (.other c2)⟩] true)
      = ([Ev.wrapBefore w, Ev.handleRun x, Ev.wrapAfterThrow w (.other c)],
          some (.hexc x (.other c2)))
    ∧ Ev.logWrapperError w ∉
        [Ev.wrapBefore w, Ev.handleRun x, Ev.wrapAfterThrow w (.other c)]) := by
  refine ⟨rfl, rfl, rfl, ?_⟩
  simp

/-- Advancing a queue of fresh plugin generators once each runs exactly the
before-phases, in registration (forward) order. -/
theorem bgqExitAdvance_fresh :
    ∀ pids : List Nat,
      bgqExitAdvance (pids.map (fun p => (p, GState.fresh))) =
        (pids.map Ev.pluginBefore, pids.map (fun p => (p, GState.suspendedAtYield)))
  | [] => rfl
  | p :: pids => by
    simp [bgqExitAdvance, bgNext, bgqExitAdvance_fresh pids]

/--
Claim C1 evaluated on the code (the claim is the spec's intent; the code
diverges): for any registered plugins, when `build_phase` raises, the
exception is thrown into the plugins' `build_train_yield` generator, whose
`BaseGeneratorQueue` does not process exceptions, so the run propagates the
exception having advanced NO plugin generator — no after-phase (and not even
a before-phase) is invoked; and even on a normal run, each plugin generator
is advanced only once — after `build_phase`, in forward registration order —
so only the before-phases ever run and no plugin after-phase is invoked in
any run.
-/
theorem c1_build_failure_skips_plugin_unwind (pids : List Nat) (e : Exc) :
    (runPluginsBracket pids (some e) = ([Ev.buildPhase], some e))
  ∧ (runPluginsBracket pids none = (Ev.buildPhase :: pids.map Ev.pluginBefore, none))
  ∧ (∀ p, Ev.pluginAfter p ∉ (runPluginsBracket pids (some e)).1)
  ∧ (∀ p, Ev.pluginAfter p ∉ (runPluginsBracket pids none).1) := by
  have hfail : runPluginsBracket pids (some e) = ([Ev.buildPhase], some e) := by
    simp [runPluginsBracket, bgqEnter, bgqExitThrow]
  have hok : runPluginsBracket pids none = (Ev.buildPhase :: pids.map Ev.pluginBefore, none) := by
    simp [runPluginsBracket, bgqEnter, bgqExitAdvance_fresh pids]
  refine ⟨hfail, hok, ?_, ?_⟩
  · intro p
    rw [hfail]
    simp
  · intro p
    rw [hok]
    simp
